import Mathlib

/-!
Verification of the transaction-resolution and report-formatting core of
the repository (src/rust/src/main.rs, lines 130-203).

The program fetches a confirmed transaction, resolves each input to its
originating output via further RPC lookups, sums input and output values,
classifies outputs as recipient ("Trader") or change ("Miner"), computes
the fee, and renders a fixed-format textual report.

The embedding below mirrors the Rust source:
  - RPC results are modelled by `TxInfo` / `BlockHeaderInfo`; the node is an
    abstract `Rpc` record of lookup functions (`none` = the RPC call fails).
  - Amounts (`bitcoin::Amount`, u64 satoshi) are `Nat`; `Amount` arithmetic
    panics on underflow/overflow, modelled by the `Outcome.panic` constructor.
  - The `?` operator propagating an RPC error is `Outcome.err`; a Rust panic
    (`unwrap` on `None`, slice index out of bounds, `Amount` subtraction
    underflow) is `Outcome.panic msg`.
  - `HashSet<Address>` is a duplicate-free `List String` in insertion order;
    its (nondeterministic) iteration order at the `join` site is an explicit
    parameter `o`, constrained in theorems to be a permutation of the set.
-/

/-- `GetRawTransactionResultVoutScriptPubKey`: only the optional address is used. -/
structure ScriptPubKey where
  address : Option String
deriving DecidableEq

/-- One entry of `tx_info.vout`: a value in satoshi and its script. -/
structure Vout where
  value : Nat
  script_pub_key : ScriptPubKey
deriving DecidableEq

/-- One entry of `tx_info.vin`: optional previous txid and output index
(both absent for a coinbase-style input). -/
structure Vin where
  txid : Option String
  vout : Option Nat
deriving DecidableEq

/-- `GetRawTransactionResult`: the fields of the RPC response the program reads. -/
structure TxInfo where
  txid : String
  blockhash : Option String
  vin : List Vin
  vout : List Vout
deriving DecidableEq

/-- `GetBlockHeaderResult`: only the height is used. -/
structure BlockHeaderInfo where
  height : Nat
deriving DecidableEq

/-- The Node RPC Gateway: the two lookups the resolver performs.
`none` models a failed RPC call (error propagated by `?` in the source). -/
structure Rpc where
  getRawTransactionInfo : String → Option String → Option TxInfo
  getBlockHeaderInfo : String → Option BlockHeaderInfo

/-- Outcome of running a fragment of `main`: a value, a propagated RPC error
(the `?` operator), or a Rust panic with its message. -/
inductive Outcome (α : Type) where
  | ok : α → Outcome α
  | err : Outcome α
  | panic : String → Outcome α
deriving DecidableEq

/-- Accumulator of the input loop (main.rs lines 138-152):
`total_input_value` and the `HashSet` of input addresses, represented as a
duplicate-free list in insertion order. -/
structure InputAccum where
  total_input_value : Nat
  miner_input_addresses : List String
deriving DecidableEq

/-- `HashSet::insert`: adds the address unless already present. -/
def insertAddr (l : List String) (a : String) : List String :=
  if a ∈ l then l else l ++ [a]

/-- The input loop (main.rs lines 141-152): for each `vin` with both a
previous txid and output index, fetch the previous transaction (unscoped),
index into its outputs (panicking if out of bounds), accumulate the value
and insert the owner address if present; otherwise skip the input. -/
def processVins (rpc : Rpc) : List Vin → InputAccum → Outcome InputAccum
  | [], acc => .ok acc
  | vin :: rest, acc =>
    match vin.txid, vin.vout with
    | some prev_txid, some prev_vout =>
      match rpc.getRawTransactionInfo prev_txid none with
      | none => .err
      | some prev_tx_info =>
        match prev_tx_info.vout[prev_vout]? with
        | none => .panic "index out of bounds"
        | some spent_output =>
          let addrs :=
            match spent_output.script_pub_key.address with
            | some address => insertAddr acc.miner_input_addresses address
            | none => acc.miner_input_addresses
          processVins rpc rest
            ⟨acc.total_input_value + spent_output.value, addrs⟩
    | _, _ => processVins rpc rest acc

/-- Accumulator of the output loop (main.rs lines 156-172). -/
structure OutputAccum where
  total_output_value : Nat
  trader_output : Option (Nat × String)
  miner_change_output : Option (Nat × String)
deriving DecidableEq

/-- The output loop (main.rs lines 161-172): accumulate every value into
`total_output_value`; for an output with an address, overwrite
`trader_output` when it equals the trader address, else overwrite
`miner_change_output`. -/
def processVouts (trader_address : String) : List Vout → OutputAccum → OutputAccum
  | [], acc => acc
  | vout :: rest, acc =>
    let acc1 : OutputAccum :=
      { acc with total_output_value := acc.total_output_value + vout.value }
    let acc2 : OutputAccum :=
      match vout.script_pub_key.address with
      | some output_address =>
        if output_address = trader_address then
          { acc1 with trader_output := some (vout.value, output_address) }
        else
          { acc1 with miner_change_output := some (vout.value, output_address) }
      | none => acc1
    processVouts trader_address rest acc2

/-- The EconomicSummary derived by main.rs lines 130-175: every field the
report formatter reads.  `blockhash` keeps the raw optional field of the
fetched transaction, unwrapped a second time at main.rs line 199. -/
structure Summary where
  txid : String
  blockhash : Option String
  block_height : Nat
  total_input_value : Nat
  miner_input_addresses : List String
  total_output_value : Nat
  trader_output : Option (Nat × String)
  miner_change_output : Option (Nat × String)
  fee : Nat
deriving DecidableEq

/-- The Transaction Resolver (main.rs lines 130-175): fetch the transaction
scoped to the block, unwrap its blockhash (panic if absent), fetch the block
header, run the two loops, and compute the fee, panicking on `Amount`
subtraction underflow as `total_input_value - total_output_value` does. -/
def resolve (rpc : Rpc) (txid block_hash trader_address : String) :
    Outcome Summary :=
  match rpc.getRawTransactionInfo txid (some block_hash) with
  | none => .err
  | some tx_info =>
    match tx_info.blockhash with
    | none => .panic "called Option::unwrap on a None value"
    | some bh =>
      match rpc.getBlockHeaderInfo bh with
      | none => .err
      | some block_header_info =>
        match processVins rpc tx_info.vin ⟨0, []⟩ with
        | .err => .err
        | .panic m => .panic m
        | .ok inAcc =>
          let outAcc := processVouts trader_address tx_info.vout ⟨0, none, none⟩
          if inAcc.total_input_value < outAcc.total_output_value then
            .panic "Amount subtraction error"
          else
            .ok
              { txid := tx_info.txid
                blockhash := tx_info.blockhash
                block_height := block_header_info.height
                total_input_value := inAcc.total_input_value
                miner_input_addresses := inAcc.miner_input_addresses
                total_output_value := outAcc.total_output_value
                trader_output := outAcc.trader_output
                miner_change_output := outAcc.miner_change_output
                fee := inAcc.total_input_value - outAcc.total_output_value }

/-- `Amount::to_btc` rendered by `Display` for `f64`: the satoshi value as a
decimal number of BTC, with no fractional part printed when it is zero and
trailing zeros trimmed otherwise. -/
def amountToBtcString (sats : Nat) : String :=
  let intPart := toString (sats / 100000000)
  let frac := sats % 100000000
  if frac = 0 then intPart
  else
    let digits := toString frac
    let padded := List.replicate (8 - digits.length) '0' ++ digits.data
    let trimmed := (padded.reverse.dropWhile (fun c => c = '0')).reverse
    intPart ++ "." ++ String.mk trimmed

/-- The two Trader lines (main.rs lines 184-187), pushed only when a
recipient output was recorded. -/
def traderLines (t : Option (Nat × String)) : List String :=
  match t with
  | some (amount, address) =>
    ["Trader's Output Address: " ++ address,
     "Trader's Output Amount (in BTC): " ++ amountToBtcString amount]
  | none => []

/-- The two change lines (main.rs lines 189-195): the recorded change output,
or the literal `None` / `0.0` lines when there is none. -/
def changeLines (c : Option (Nat × String)) : List String :=
  match c with
  | some (amount, address) =>
    ["Miner's Change Address: " ++ address,
     "Miner's Change Amount (in BTC): " ++ amountToBtcString amount]
  | none =>
    ["Miner's Change Address: None",
     "Miner's Change Amount (in BTC): 0.0"]

/-- The report lines pushed by main.rs lines 180-199, in order; `o` is the
iteration order of the input-address `HashSet` at line 153 and `bh` the
blockhash unwrapped at line 199. -/
def reportLines (s : Summary) (o : List String) (bh : String) : List String :=
  ["Transaction ID (txid): " ++ s.txid,
   "Miner's Input Address: " ++ String.intercalate ", " o,
   "Miner's Input Amount (in BTC): " ++ amountToBtcString s.total_input_value]
  ++ traderLines s.trader_output
  ++ changeLines s.miner_change_output
  ++ ["Transaction Fees (in BTC): " ++ amountToBtcString s.fee,
      "Block height at which the transaction is confirmed: " ++
        toString s.block_height,
      "Block hash at which the transaction is confirmed: " ++ bh]

/-- Each pushed line ends with a newline. -/
def renderLines (ls : List String) : String :=
  String.join (ls.map (fun l => l ++ "\n"))

/-- The Report Formatter (main.rs lines 178-199): unwraps the transaction's
blockhash a second time (line 199), panicking if absent. -/
def formatReport (s : Summary) (o : List String) : Outcome String :=
  match s.blockhash with
  | none => .panic "called Option::unwrap on a None value"
  | some bh => .ok (renderLines (reportLines s o bh))

/-- The whole pipeline from line 130 through the report text written at
line 203: resolve, then format.  A non-`ok` outcome means the run aborted
before `File::create`, so no report file is produced. -/
def runMain (rpc : Rpc) (txid block_hash trader_address : String)
    (o : List String) : Outcome String :=
  match resolve rpc txid block_hash trader_address with
  | .ok s => formatReport s o
  | .err => .err
  | .panic m => .panic m

/-! ## Spec-side definitions and concrete-ledger constructors -/

/-- The value of the source output an input resolves to under the given
ledger; `none` for a coinbase-style input or a failed lookup. -/
def sourceOutputValue (rpc : Rpc) (vin : Vin) : Option Nat := do
  let prev_txid ← vin.txid
  let prev_vout ← vin.vout
  let prev ← rpc.getRawTransactionInfo prev_txid none
  let spent ← prev.vout[prev_vout]?
  pure spent.value

/-- Sum of the values of all resolved source outputs of the inputs. -/
def specInputSum (rpc : Rpc) (vins : List Vin) : Nat :=
  (vins.filterMap (sourceOutputValue rpc)).sum

/-- The outputs whose address equals the known recipient address, in
output-list order, as (value, address) pairs. -/
def recipientMatches (trader_address : String) (vouts : List Vout) :
    List (Nat × String) :=
  vouts.filterMap fun v =>
    match v.script_pub_key.address with
    | some a => if a = trader_address then some (v.value, a) else none
    | none => none

/-- The outputs carrying an address different from the known recipient
address, in output-list order, as (value, address) pairs. -/
def changeMatches (trader_address : String) (vouts : List Vout) :
    List (Nat × String) :=
  vouts.filterMap fun v =>
    match v.script_pub_key.address with
    | some a => if a = trader_address then none else some (v.value, a)
    | none => none

/-- Modelled from the spec claim wording: the FIRST output of the
transaction whose address equals the known recipient address. -/
def firstRecipientMatch (trader_address : String) (vouts : List Vout) :
    Option (Nat × String) :=
  (recipientMatches trader_address vouts).head?

/-- Repeated overwrite of an optional register by the elements of a list:
the last element wins, the initial value survives only an empty list. -/
def lastOr (init : Option (Nat × String)) :
    List (Nat × String) → Option (Nat × String)
  | [] => init
  | x :: l => lastOr (some x) l

/-- Whether every non-coinbase input's previous-transaction fetch succeeds. -/
def allPrevFetchesOk (rpc : Rpc) (vins : List Vin) : Bool :=
  vins.all fun vin =>
    match vin.txid, vin.vout with
    | some prev_txid, some _ => (rpc.getRawTransactionInfo prev_txid none).isSome
    | _, _ => true

/-- A concrete ledger from association lists of transactions and headers. -/
def mkRpc (txs : List (String × TxInfo))
    (hdrs : List (String × BlockHeaderInfo)) : Rpc where
  getRawTransactionInfo := fun t _ => (txs.find? (fun p => p.1 == t)).map (·.2)
  getBlockHeaderInfo := fun h => (hdrs.find? (fun p => p.1 == h)).map (·.2)

/-- A ledger on which every lookup fails. -/
def failRpc : Rpc where
  getRawTransactionInfo := fun _ _ => none
  getBlockHeaderInfo := fun _ => none

/-! ## Concrete ledgers used to instantiate the theorems

All use the known recipient ("Trader") address `"TR"`, the confirming block
`"B1"` at height 102, and miner addresses `"MA"`, `"A"`, `"B"`. -/

/-- Header table shared by the concrete ledgers. -/
def hdrs1 : List (String × BlockHeaderInfo) := [("B1", ⟨102⟩)]

/-- Source transaction of the end-to-end scenario: one output of
5 000 000 000 sat owned by `"MA"`. -/
def prevTx1 : TxInfo :=
  { txid := "P1", blockhash := some "B0", vin := [⟨none, none⟩],
    vout := [⟨5000000000, ⟨some "MA"⟩⟩] }

/-- The end-to-end scenario transaction: one input spending `prevTx1`'s
output, a 2 000 000 000 sat output to the recipient and a
2 999 990 000 sat change output. -/
def tx1 : TxInfo :=
  { txid := "T1", blockhash := some "B1",
    vin := [⟨some "P1", some 0⟩],
    vout := [⟨2000000000, ⟨some "TR"⟩⟩, ⟨2999990000, ⟨some "CH"⟩⟩] }

def rpc1 : Rpc := mkRpc [("T1", tx1), ("P1", prevTx1)] hdrs1

/-- The summary the resolver derives from `rpc1`. -/
def summary1 : Summary :=
  { txid := "T1", blockhash := some "B1", block_height := 102,
    total_input_value := 5000000000, miner_input_addresses := ["MA"],
    total_output_value := 4999990000,
    trader_output := some (2000000000, "TR"),
    miner_change_output := some (2999990000, "CH"), fee := 10000 }

/-- A transaction whose outputs (150 sat) exceed its resolved input
(100 sat): the fee subtraction underflows. -/
def tx0 : TxInfo :=
  { txid := "T0", blockhash := some "B1",
    vin := [⟨some "P0", some 0⟩], vout := [⟨150, ⟨some "TR"⟩⟩] }

def prevTx0 : TxInfo :=
  { txid := "P0", blockhash := some "B0", vin := [⟨none, none⟩],
    vout := [⟨100, ⟨some "MA"⟩⟩] }

def rpcNeg : Rpc := mkRpc [("T0", tx0), ("P0", prevTx0)] hdrs1

/-- A transaction with two outputs to the recipient address (values 1 and 2). -/
def tx2 : TxInfo :=
  { txid := "T2", blockhash := some "B1",
    vin := [⟨some "P2", some 0⟩],
    vout := [⟨1, ⟨some "TR"⟩⟩, ⟨2, ⟨some "TR"⟩⟩] }

def prevTx2 : TxInfo :=
  { txid := "P2", blockhash := some "B0", vin := [⟨none, none⟩],
    vout := [⟨10, ⟨some "MA"⟩⟩] }

def rpc2 : Rpc := mkRpc [("T2", tx2), ("P2", prevTx2)] hdrs1

def summary2 : Summary :=
  { txid := "T2", blockhash := some "B1", block_height := 102,
    total_input_value := 10, miner_input_addresses := ["MA"],
    total_output_value := 3, trader_output := some (2, "TR"),
    miner_change_output := none, fee := 7 }

/-- A transaction with two non-recipient addressed outputs
(`(1, "A")` and `(2, "B")`): an ambiguous change candidate set. -/
def tx3 : TxInfo :=
  { txid := "T3", blockhash := some "B1",
    vin := [⟨some "P2", some 0⟩],
    vout := [⟨1, ⟨some "A"⟩⟩, ⟨2, ⟨some "B"⟩⟩, ⟨3, ⟨some "TR"⟩⟩] }

def rpc3 : Rpc := mkRpc [("T3", tx3), ("P2", prevTx2)] hdrs1

def summary3 : Summary :=
  { txid := "T3", blockhash := some "B1", block_height := 102,
    total_input_value := 10, miner_input_addresses := ["MA"],
    total_output_value := 6, trader_output := some (3, "TR"),
    miner_change_output := some (2, "B"), fee := 4 }

/-- A transaction with two inputs resolving to two distinct owner
addresses `"A"` and `"B"`. -/
def tx4 : TxInfo :=
  { txid := "T4", blockhash := some "B1",
    vin := [⟨some "P4", some 0⟩, ⟨some "P5", some 0⟩],
    vout := [⟨5, ⟨some "TR"⟩⟩] }

def prevTx4 : TxInfo :=
  { txid := "P4", blockhash := some "B0", vin := [⟨none, none⟩],
    vout := [⟨10, ⟨some "A"⟩⟩] }

def prevTx5 : TxInfo :=
  { txid := "P5", blockhash := some "B0", vin := [⟨none, none⟩],
    vout := [⟨10, ⟨some "B"⟩⟩] }

def rpc4 : Rpc := mkRpc [("T4", tx4), ("P4", prevTx4), ("P5", prevTx5)] hdrs1

def summary4 : Summary :=
  { txid := "T4", blockhash := some "B1", block_height := 102,
    total_input_value := 20, miner_input_addresses := ["A", "B"],
    total_output_value := 5, trader_output := some (5, "TR"),
    miner_change_output := none, fee := 15 }

/-- A transaction with two inputs spending two outputs owned by the SAME
address `"MA"`. -/
def tx6 : TxInfo :=
  { txid := "T6", blockhash := some "B1",
    vin := [⟨some "P6", some 0⟩, ⟨some "P6", some 1⟩],
    vout := [⟨6, ⟨some "TR"⟩⟩] }

def prevTx6 : TxInfo :=
  { txid := "P6", blockhash := some "B0", vin := [⟨none, none⟩],
    vout := [⟨5, ⟨some "MA"⟩⟩, ⟨7, ⟨some "MA"⟩⟩] }

def rpc6 : Rpc := mkRpc [("T6", tx6), ("P6", prevTx6)] hdrs1

def summary6 : Summary :=
  { txid := "T6", blockhash := some "B1", block_height := 102,
    total_input_value := 12, miner_input_addresses := ["MA"],
    total_output_value := 6, trader_output := some (6, "TR"),
    miner_change_output := none, fee := 6 }

/-- A transaction whose single output goes to the recipient: no change
output exists. -/
def tx7 : TxInfo :=
  { txid := "T7", blockhash := some "B1",
    vin := [⟨some "P2", some 0⟩], vout := [⟨6, ⟨some "TR"⟩⟩] }

def rpc7 : Rpc := mkRpc [("T7", tx7), ("P2", prevTx2)] hdrs1

def summary7 : Summary :=
  { txid := "T7", blockhash := some "B1", block_height := 102,
    total_input_value := 10, miner_input_addresses := ["MA"],
    total_output_value := 6, trader_output := some (6, "TR"),
    miner_change_output := none, fee := 4 }

/-- A transaction whose input references output index 5 of a source
transaction that has only one output. -/
def tx8 : TxInfo :=
  { txid := "T8", blockhash := some "B1",
    vin := [⟨some "P8", some 5⟩], vout := [] }

def prevTx8 : TxInfo :=
  { txid := "P8", blockhash := some "B0", vin := [⟨none, none⟩],
    vout := [⟨10, ⟨some "MA"⟩⟩] }

def rpc8 : Rpc := mkRpc [("T8", tx8), ("P8", prevTx8)] hdrs1

/-- A fetched transaction whose `blockhash` field is absent. -/
def tx10 : TxInfo :=
  { txid := "T10", blockhash := none, vin := [], vout := [] }

def rpc10 : Rpc := mkRpc [("T10", tx10)] hdrs1

/-! ## Helper lemmas -/

lemma insertAddr_nodup {l : List String} {a : String} (h : l.Nodup) :
    (insertAddr l a).Nodup := by
  unfold insertAddr
  split
  · exact h
  · simp_all [List.nodup_append]

lemma lastOr_some_eq_getLast (l : List (Nat × String)) (x : Nat × String) :
    lastOr (some x) l = (x :: l).getLast? := by
  induction l generalizing x with
  | nil => rfl
  | cons y l ih => rw [lastOr, ih, List.getLast?_cons_cons]

lemma lastOr_none_eq_getLast (l : List (Nat × String)) :
    lastOr none l = l.getLast? := by
  cases l with
  | nil => rfl
  | cons x l => rw [lastOr, lastOr_some_eq_getLast]

lemma processVouts_total (a : String) (vouts : List Vout) (acc : OutputAccum) :
    (processVouts a vouts acc).total_output_value
      = acc.total_output_value + (vouts.map Vout.value).sum := by
  induction vouts generalizing acc with
  | nil => simp [processVouts]
  | cons v rest ih =>
    rw [processVouts]
    cases hv : v.script_pub_key.address with
    | none => simp [hv, ih]; omega
    | some addr =>
      by_cases haddr : addr = a <;> simp [hv, haddr, ih] <;> omega

lemma processVouts_trader (a : String) (vouts : List Vout) (acc : OutputAccum) :
    (processVouts a vouts acc).trader_output
      = lastOr acc.trader_output (recipientMatches a vouts) := by
  induction vouts generalizing acc with
  | nil => simp [processVouts, recipientMatches, lastOr]
  | cons v rest ih =>
    rw [processVouts]
    cases hv : v.script_pub_key.address with
    | none => simp [hv, ih, recipientMatches, List.filterMap_cons]
    | some addr =>
      by_cases haddr : addr = a <;>
        simp [hv, haddr, ih, recipientMatches, List.filterMap_cons, lastOr]

lemma processVouts_change (a : String) (vouts : List Vout) (acc : OutputAccum) :
    (processVouts a vouts acc).miner_change_output
      = lastOr acc.miner_change_output (changeMatches a vouts) := by
  induction vouts generalizing acc with
  | nil => simp [processVouts, changeMatches, lastOr]
  | cons v rest ih =>
    rw [processVouts]
    cases hv : v.script_pub_key.address with
    | none => simp [hv, ih, changeMatches, List.filterMap_cons]
    | some addr =>
      by_cases haddr : addr = a <;>
        simp [hv, haddr, ih, changeMatches, List.filterMap_cons, lastOr]

lemma processVins_ok_total {rpc : Rpc} {vins : List Vin} {acc acc' : InputAccum}
    (h : processVins rpc vins acc = .ok acc') :
    acc'.total_input_value = acc.total_input_value + specInputSum rpc vins := by
  induction vins generalizing acc with
  | nil =>
    rw [processVins] at h
    cases h
    simp [specInputSum]
  | cons vin rest ih =>
    rw [processVins] at h
    cases htx : vin.txid with
    | none =>
      simp only [htx] at h
      have := ih h
      simp only [specInputSum, List.filterMap_cons, sourceOutputValue, htx,
        Option.bind_eq_bind, Option.none_bind] at *
      omega
    | some pt =>
      cases hvo : vin.vout with
      | none =>
        simp only [htx, hvo] at h
        have := ih h
        simp only [specInputSum, List.filterMap_cons, sourceOutputValue, htx, hvo,
          Option.bind_eq_bind, Option.none_bind, Option.some_bind] at *
        omega
      | some pi =>
        cases hfetch : rpc.getRawTransactionInfo pt none with
        | none =>
          simp only [htx, hvo, hfetch] at h
          exact Outcome.noConfusion h
        | some prev =>
          cases hidx : prev.vout[pi]? with
          | none =>
            simp only [htx, hvo, hfetch, hidx] at h
            exact Outcome.noConfusion h
          | some spent =>
            simp only [htx, hvo, hfetch, hidx] at h
            have := ih h
            simp only [specInputSum, List.filterMap_cons, sourceOutputValue, htx,
              hvo, hfetch, hidx, Option.bind_eq_bind, Option.some_bind,
              List.sum_cons] at *
            omega

lemma processVins_ok_nodup {rpc : Rpc} {vins : List Vin} {acc acc' : InputAccum}
    (h : processVins rpc vins acc = .ok acc')
    (hnd : acc.miner_input_addresses.Nodup) :
    acc'.miner_input_addresses.Nodup := by
  induction vins generalizing acc with
  | nil => rw [processVins] at h; cases h; exact hnd
  | cons vin rest ih =>
    rw [processVins] at h
    cases htx : vin.txid with
    | none =>
      simp only [htx] at h
      exact ih h hnd
    | some pt =>
      cases hvo : vin.vout with
      | none =>
        simp only [htx, hvo] at h
        exact ih h hnd
      | some pi =>
        cases hfetch : rpc.getRawTransactionInfo pt none with
        | none =>
          simp only [htx, hvo, hfetch] at h
          exact Outcome.noConfusion h
        | some prev =>
          cases hidx : prev.vout[pi]? with
          | none =>
            simp only [htx, hvo, hfetch, hidx] at h
            exact Outcome.noConfusion h
          | some spent =>
            simp only [htx, hvo, hfetch, hidx] at h
            refine ih h ?_
            cases haddr : spent.script_pub_key.address with
            | none => simpa [haddr] using hnd
            | some a => simpa [haddr] using insertAddr_nodup hnd

lemma processVins_ok_fetches {rpc : Rpc} {vins : List Vin} {acc acc' : InputAccum}
    (h : processVins rpc vins acc = .ok acc') :
    allPrevFetchesOk rpc vins = true := by
  induction vins generalizing acc with
  | nil => simp [allPrevFetchesOk]
  | cons vin rest ih =>
    rw [processVins] at h
    cases htx : vin.txid with
    | none =>
      simp only [htx] at h
      have := ih h
      simp only [allPrevFetchesOk, List.all_cons, htx] at *
      simpa using this
    | some pt =>
      cases hvo : vin.vout with
      | none =>
        simp only [htx, hvo] at h
        have := ih h
        simp only [allPrevFetchesOk, List.all_cons, htx, hvo] at *
        simpa using this
      | some pi =>
        cases hfetch : rpc.getRawTransactionInfo pt none with
        | none =>
          simp only [htx, hvo, hfetch] at h
          exact Outcome.noConfusion h
        | some prev =>
          cases hidx : prev.vout[pi]? with
          | none =>
            simp only [htx, hvo, hfetch, hidx] at h
            exact Outcome.noConfusion h
          | some spent =>
            simp only [htx, hvo, hfetch, hidx] at h
            have := ih h
            simp only [allPrevFetchesOk, List.all_cons, htx, hvo, hfetch] at *
            simpa using this

/-- The summary `resolve` builds from its intermediate values. -/
def mkSummary (tx_info : TxInfo) (block_header_info : BlockHeaderInfo)
    (inAcc : InputAccum) (outAcc : OutputAccum) : Summary :=
  { txid := tx_info.txid
    blockhash := tx_info.blockhash
    block_height := block_header_info.height
    total_input_value := inAcc.total_input_value
    miner_input_addresses := inAcc.miner_input_addresses
    total_output_value := outAcc.total_output_value
    trader_output := outAcc.trader_output
    miner_change_output := outAcc.miner_change_output
    fee := inAcc.total_input_value - outAcc.total_output_value }

lemma resolve_ok_inv {rpc : Rpc} {txid block_hash trader_address : String}
    {s : Summary} (h : resolve rpc txid block_hash trader_address = .ok s) :
    ∃ tx_info bh block_header_info inAcc,
      rpc.getRawTransactionInfo txid (some block_hash) = some tx_info ∧
      tx_info.blockhash = some bh ∧
      rpc.getBlockHeaderInfo bh = some block_header_info ∧
      processVins rpc tx_info.vin ⟨0, []⟩ = .ok inAcc ∧
      (processVouts trader_address tx_info.vout ⟨0, none, none⟩).total_output_value
        ≤ inAcc.total_input_value ∧
      s = mkSummary tx_info block_header_info inAcc
            (processVouts trader_address tx_info.vout ⟨0, none, none⟩) := by
  rw [resolve] at h
  cases hfetch : rpc.getRawTransactionInfo txid (some block_hash) with
  | none =>
    simp only [hfetch] at h
    exact Outcome.noConfusion h
  | some tx_info =>
    simp only [hfetch] at h
    cases hbh : tx_info.blockhash with
    | none =>
      simp only [hbh] at h
      exact Outcome.noConfusion h
    | some bh =>
      simp only [hbh] at h
      cases hhdr : rpc.getBlockHeaderInfo bh with
      | none =>
        simp only [hhdr] at h
        exact Outcome.noConfusion h
      | some block_header_info =>
        simp only [hhdr] at h
        cases hvins : processVins rpc tx_info.vin ⟨0, []⟩ with
        | err =>
          simp only [hvins] at h
          exact Outcome.noConfusion h
        | panic m =>
          simp only [hvins] at h
          exact Outcome.noConfusion h
        | ok inAcc =>
          simp only [hvins] at h
          by_cases hlt : inAcc.total_input_value
              < (processVouts trader_address tx_info.vout ⟨0, none, none⟩).total_output_value
          · simp only [if_pos hlt] at h
            exact Outcome.noConfusion h
          · simp only [if_neg hlt] at h
            cases h
            exact ⟨tx_info, bh, block_header_info, inAcc, rfl, hbh, hhdr,
              hvins, Nat.le_of_not_lt hlt, by simp [mkSummary, hbh]⟩

lemma runMain_ok_inv {rpc : Rpc} {txid block_hash trader_address : String}
    {o : List String} {text : String}
    (h : runMain rpc txid block_hash trader_address o = .ok text) :
    ∃ s bh, resolve rpc txid block_hash trader_address = .ok s ∧
      s.blockhash = some bh ∧ text = renderLines (reportLines s o bh) := by
  rw [runMain] at h
  cases hres : resolve rpc txid block_hash trader_address with
  | err =>
    simp only [hres] at h
    exact Outcome.noConfusion h
  | panic m =>
    simp only [hres] at h
    exact Outcome.noConfusion h
  | ok s =>
    simp only [hres] at h
    rw [formatReport] at h
    cases hbh : s.blockhash with
    | none =>
      simp only [hbh] at h
      exact Outcome.noConfusion h
    | some bh =>
      simp only [hbh] at h
      cases h
      exact ⟨s, bh, rfl, hbh, rfl⟩

lemma runMain_of_resolve_ok {rpc : Rpc} {txid block_hash trader_address : String}
    {o : List String} {s : Summary} {bh : String}
    (h : resolve rpc txid block_hash trader_address = .ok s)
    (hbh : s.blockhash = some bh) :
    runMain rpc txid block_hash trader_address o
      = .ok (renderLines (reportLines s o bh)) := by
  simp only [runMain, h, formatReport, hbh]

lemma runMain_of_resolve_panic {rpc : Rpc}
    {txid block_hash trader_address : String} {o : List String} {m : String}
    (h : resolve rpc txid block_hash trader_address = .panic m) :
    runMain rpc txid block_hash trader_address o = .panic m := by
  simp only [runMain, h]

/-! ## The claims -/

/-- C1: for every resolved transaction the fee equals totalInputValue minus
totalOutputValue, where totalInputValue is the sum of the values of all
resolved source outputs and totalOutputValue the sum of all output values;
for a successfully resolved transaction this difference is never negative,
and a negative difference halts resolution with a fatal panic
(`Amount` subtraction underflow) instead of being reported. -/
theorem spec_c1_fee_residual :
    (∀ rpc txid block_hash trader_address tx_info s,
      rpc.getRawTransactionInfo txid (some block_hash) = some tx_info →
      resolve rpc txid block_hash trader_address = .ok s →
      s.fee + s.total_output_value = s.total_input_value ∧
      s.total_output_value ≤ s.total_input_value ∧
      s.total_input_value = specInputSum rpc tx_info.vin ∧
      s.total_output_value = (tx_info.vout.map Vout.value).sum) ∧
    (∀ rpc txid block_hash trader_address tx_info bh hdr inAcc,
      rpc.getRawTransactionInfo txid (some block_hash) = some tx_info →
      tx_info.blockhash = some bh →
      rpc.getBlockHeaderInfo bh = some hdr →
      processVins rpc tx_info.vin ⟨0, []⟩ = .ok inAcc →
      inAcc.total_input_value
        < (processVouts trader_address tx_info.vout
            ⟨0, none, none⟩).total_output_value →
      resolve rpc txid block_hash trader_address
        = .panic "Amount subtraction error") := by
  constructor
  · intro rpc txid block_hash trader_address tx_info s hfetch hres
    obtain ⟨tx_info', bh, hdr, inAcc, hfetch', hbh, hhdr, hvins, hle, hs⟩ :=
      resolve_ok_inv hres
    rw [hfetch] at hfetch'
    cases hfetch'
    subst hs
    refine ⟨Nat.sub_add_cancel hle, hle, ?_, ?_⟩
    · have := processVins_ok_total hvins
      simpa [mkSummary] using this
    · have := processVouts_total trader_address tx_info.vout ⟨0, none, none⟩
      simpa [mkSummary] using this
  · intro rpc txid block_hash trader_address tx_info bh hdr inAcc
      hfetch hbh hhdr hvins hlt
    rw [resolve]
    simp only [hfetch, hbh, hhdr, hvins, if_pos hlt]

/-- C5: an input with no previous-output reference (no previous txid or no
output index) is skipped by the input loop: it contributes nothing to the
accumulated input value or address set, and the loop's result does not
depend on any ledger lookup for it (the equation holds for every `rpc`,
including one on which every fetch fails). -/
theorem spec_c5_coinbase_skipped :
    ∀ (rpc : Rpc) (vin : Vin) (rest : List Vin) (acc : InputAccum),
      vin.txid = none ∨ vin.vout = none →
      processVins rpc (vin :: rest) acc = processVins rpc rest acc := by
  intro rpc vin rest acc h
  rw [processVins]
  rcases h with h | h
  · cases hvo : vin.vout <;> simp only [h, hvo]
  · cases htx : vin.txid <;> simp only [h, htx]

/-- C6: the input-address set is deduplicated: the address list of every
successfully resolved summary has no duplicate entries, so each owner
address occurs at most once however many inputs spend from it. -/
theorem spec_c6_addresses_deduplicated :
    ∀ rpc txid block_hash trader_address s,
      resolve rpc txid block_hash trader_address = .ok s →
      s.miner_input_addresses.Nodup ∧
      ∀ a, s.miner_input_addresses.count a ≤ 1 := by
  intro rpc txid block_hash trader_address s hres
  obtain ⟨tx_info, bh, hdr, inAcc, hfetch, hbh, hhdr, hvins, hle, hs⟩ :=
    resolve_ok_inv hres
  subst hs
  have hnd : inAcc.miner_input_addresses.Nodup :=
    processVins_ok_nodup hvins (by simp)
  refine ⟨by simpa [mkSummary] using hnd, fun a => ?_⟩
  simpa [mkSummary] using (List.nodup_iff_count_le_one.mp hnd) a

/-- Witness for C1: the end-to-end scenario (one 5 000 000 000 sat input,
outputs of 2 000 000 000 and 2 999 990 000 sat, fee 10 000 sat), and a
ledger on which outputs exceed inputs, where resolution panics. -/
theorem spec_c1_fee_residual_witness :
    (summary1.fee + summary1.total_output_value = summary1.total_input_value ∧
     summary1.total_output_value ≤ summary1.total_input_value ∧
     summary1.total_input_value = specInputSum rpc1 tx1.vin ∧
     summary1.total_output_value = (tx1.vout.map Vout.value).sum) ∧
    resolve rpcNeg "T0" "B1" "TR" = .panic "Amount subtraction error" :=
  ⟨spec_c1_fee_residual.1 rpc1 "T1" "B1" "TR" tx1 summary1 rfl rfl,
   spec_c1_fee_residual.2 rpcNeg "T0" "B1" "TR" tx0 "B1" ⟨102⟩
     ⟨100, ["MA"]⟩ rfl rfl rfl rfl (by decide)⟩

/-- Witness for C5: a coinbase-style input is skipped even on a ledger where
every lookup fails, leaving the accumulator untouched. -/
theorem spec_c5_coinbase_skipped_witness :
    processVins failRpc [⟨none, none⟩] ⟨0, []⟩ = .ok ⟨0, []⟩ :=
  (spec_c5_coinbase_skipped failRpc ⟨none, none⟩ [] ⟨0, []⟩ (Or.inl rfl)).trans rfl

/-- Witness for C6: two inputs spending two outputs owned by the same
address `"MA"` yield the singleton address list `["MA"]`, which is
duplicate-free. -/
theorem spec_c6_addresses_deduplicated_witness :
    resolve rpc6 "T6" "B1" "TR" = .ok summary6 ∧
    summary6.miner_input_addresses = ["MA"] ∧
    summary6.miner_input_addresses.Nodup :=
  ⟨rfl, rfl, (spec_c6_addresses_deduplicated rpc6 "T6" "B1" "TR" summary6 rfl).1⟩

/-- C2 counterexample: on a transaction with two outputs to the recipient
address (values 1 then 2, in output-list order), the recorded recipient
output is `(2, "TR")`, not the first matching output `(1, "TR")`: the claim
that the first match wins is false of the code. -/
theorem spec_c2_counterexample :
    resolve rpc2 "T2" "B1" "TR" = .ok summary2 ∧
    firstRecipientMatch "TR" tx2.vout = some (1, "TR") ∧
    summary2.trader_output = some (2, "TR") ∧
    summary2.trader_output ≠ firstRecipientMatch "TR" tx2.vout := by
  refine ⟨rfl, rfl, rfl, ?_⟩
  decide

/-- C2 (amended): when more than one output carries the known recipient
address, the output recorded as the designated recipient output is the LAST
matching output in output-list order (each match overwrites the previous
one). -/
theorem spec_c2_last_recipient_wins :
    ∀ rpc txid block_hash trader_address tx_info s,
      rpc.getRawTransactionInfo txid (some block_hash) = some tx_info →
      resolve rpc txid block_hash trader_address = .ok s →
      s.trader_output = (recipientMatches trader_address tx_info.vout).getLast? := by
  intro rpc txid block_hash trader_address tx_info s hfetch hres
  obtain ⟨tx_info', bh, hdr, inAcc, hfetch', hbh, hhdr, hvins, hle, hs⟩ :=
    resolve_ok_inv hres
  rw [hfetch] at hfetch'
  cases hfetch'
  subst hs
  have := processVouts_trader trader_address tx_info.vout ⟨0, none, none⟩
  simpa [mkSummary, lastOr_none_eq_getLast] using this

/-- Witness for the amended C2: on the duplicate-recipient ledger the
recorded output is the last match `(2, "TR")`. -/
theorem spec_c2_last_recipient_wins_witness :
    summary2.trader_output
      = (recipientMatches "TR" tx2.vout).getLast? :=
  spec_c2_last_recipient_wins rpc2 "T2" "B1" "TR" tx2 summary2 rfl rfl

/-- C3 counterexample: on a transaction with two non-recipient addressed
outputs `(1, "A")` and `(2, "B")` the resolution succeeds (nothing is
rejected or flagged) and silently records one of the candidates,
`(2, "B")`, as the change output: the claim that ambiguity is rejected or
flagged is false of the code. -/
theorem spec_c3_counterexample :
    (changeMatches "TR" tx3.vout).length = 2 ∧
    resolve rpc3 "T3" "B1" "TR" = .ok summary3 ∧
    summary3.miner_change_output = some (2, "B") ∧
    some (2, "B") ∈ (changeMatches "TR" tx3.vout).map some := by
  exact ⟨rfl, rfl, rfl, by decide⟩

/-- C3 (amended): when one or more outputs carry a resolvable non-recipient
address, resolution does not reject or flag anything: it records the LAST
such output in output-list order as the change output (each one overwrites
the previous). -/
theorem spec_c3_last_change_wins :
    ∀ rpc txid block_hash trader_address tx_info s,
      rpc.getRawTransactionInfo txid (some block_hash) = some tx_info →
      resolve rpc txid block_hash trader_address = .ok s →
      s.miner_change_output = (changeMatches trader_address tx_info.vout).getLast? := by
  intro rpc txid block_hash trader_address tx_info s hfetch hres
  obtain ⟨tx_info', bh, hdr, inAcc, hfetch', hbh, hhdr, hvins, hle, hs⟩ :=
    resolve_ok_inv hres
  rw [hfetch] at hfetch'
  cases hfetch'
  subst hs
  have := processVouts_change trader_address tx_info.vout ⟨0, none, none⟩
  simpa [mkSummary, lastOr_none_eq_getLast] using this

/-- Witness for the amended C3: on the ambiguous ledger the recorded change
output is the last non-recipient addressed output `(2, "B")`. -/
theorem spec_c3_last_change_wins_witness :
    summary3.miner_change_output
      = (changeMatches "TR" tx3.vout).getLast? :=
  spec_c3_last_change_wins rpc3 "T3" "B1" "TR" tx3 summary3 rfl rfl

/-- C4 counterexample: with two distinct input addresses `"A"` and `"B"`,
two `HashSet` iteration orders that are both permutations of the resolved
address set render different report texts (the comma-space-joined address
string differs), so byte-identical output across two runs is not
guaranteed by the code. -/
theorem spec_c4_counterexample :
    resolve rpc4 "T4" "B1" "TR" = .ok summary4 ∧
    (["A", "B"] : List String).Perm summary4.miner_input_addresses ∧
    (["B", "A"] : List String).Perm summary4.miner_input_addresses ∧
    runMain rpc4 "T4" "B1" "TR" ["A", "B"]
      ≠ runMain rpc4 "T4" "B1" "TR" ["B", "A"] := by
  exact ⟨rfl, by decide, by decide, by decide⟩

/-- C4 (amended): resolving the same (txid, blockhash, recipient) triple
twice against an unchanged ledger yields the same EconomicSummary, and the
two report texts agree up to a permutation of the joined input-address
string; they are byte-identical whenever the unique-input-address set has
at most one element, but with two or more addresses the `HashSet` iteration
order is not fixed by the code, so byte-identity is not guaranteed. -/
theorem spec_c4_identical_up_to_order :
    ∀ (rpc : Rpc) (txid block_hash trader_address : String) (s : Summary)
      (o1 o2 : List String),
      resolve rpc txid block_hash trader_address = .ok s →
      o1.Perm s.miner_input_addresses →
      o2.Perm s.miner_input_addresses →
      o1.Perm o2 ∧
      (s.miner_input_addresses.length ≤ 1 →
        runMain rpc txid block_hash trader_address o1
          = runMain rpc txid block_hash trader_address o2) := by
  intro rpc txid block_hash trader_address s o1 o2 hres h1 h2
  refine ⟨h1.trans h2.symm, fun hlen => ?_⟩
  cases hl : s.miner_input_addresses with
  | nil =>
    rw [hl, List.perm_nil] at h1 h2
    rw [h1, h2]
  | cons a rest =>
    cases rest with
    | nil =>
      rw [hl, List.perm_singleton] at h1 h2
      rw [h1, h2]
    | cons b rest2 =>
      rw [hl] at hlen
      simp at hlen

/-- Witness for the amended C4: with the single input address `"MA"` the
iteration order is forced and the two runs agree byte for byte. -/
theorem spec_c4_identical_up_to_order_witness :
    resolve rpc1 "T1" "B1" "TR" = .ok summary1 ∧
    runMain rpc1 "T1" "B1" "TR" ["MA"] = runMain rpc1 "T1" "B1" "TR" ["MA"] :=
  ⟨rfl, (spec_c4_identical_up_to_order rpc1 "T1" "B1" "TR" summary1
      ["MA"] ["MA"] rfl (by decide) (by decide)).2 (by decide)⟩

/-- C7: when no output carries a resolvable non-recipient address, the
resolved summary has no change output and the produced report contains the
exact consecutive lines `Miner's Change Address: None` and
`Miner's Change Amount (in BTC): 0.0`; the run still ends in a produced
report (a valid terminal state), not an error. -/
theorem spec_c7_no_change_lines :
    ∀ (rpc : Rpc) (txid block_hash trader_address : String) (o : List String)
      (s : Summary),
      resolve rpc txid block_hash trader_address = .ok s →
      s.miner_change_output = none →
      ∃ bh, s.blockhash = some bh ∧
        runMain rpc txid block_hash trader_address o
          = .ok (renderLines (reportLines s o bh)) ∧
        ∃ pre post, reportLines s o bh
          = pre ++ ["Miner's Change Address: None",
                    "Miner's Change Amount (in BTC): 0.0"] ++ post := by
  intro rpc txid block_hash trader_address o s hres hchange
  obtain ⟨tx_info, bh, hdr, inAcc, hfetch, hbh, hhdr, hvins, hle, hs⟩ :=
    resolve_ok_inv hres
  have hsbh : s.blockhash = some bh := by
    rw [hs]; simpa [mkSummary] using hbh
  refine ⟨bh, hsbh, runMain_of_resolve_ok hres hsbh,
    ["Transaction ID (txid): " ++ s.txid,
     "Miner's Input Address: " ++ String.intercalate ", " o,
     "Miner's Input Amount (in BTC): "
       ++ amountToBtcString s.total_input_value]
     ++ traderLines s.trader_output,
    ["Transaction Fees (in BTC): " ++ amountToBtcString s.fee,
     "Block height at which the transaction is confirmed: "
       ++ toString s.block_height,
     "Block hash at which the transaction is confirmed: " ++ bh], ?_⟩
  simp [reportLines, changeLines, hchange]

/-- Witness for C7: a transaction whose only output goes to the recipient
resolves with no change output, and its report carries the two literal
`None` / `0.0` change lines. -/
theorem spec_c7_no_change_lines_witness :
    resolve rpc7 "T7" "B1" "TR" = .ok summary7 ∧
    summary7.miner_change_output = none ∧
    ∃ bh, summary7.blockhash = some bh ∧
      runMain rpc7 "T7" "B1" "TR" ["MA"]
        = .ok (renderLines (reportLines summary7 ["MA"] bh)) ∧
      ∃ pre post, reportLines summary7 ["MA"] bh
        = pre ++ ["Miner's Change Address: None",
                  "Miner's Change Amount (in BTC): 0.0"] ++ post :=
  ⟨rfl, rfl, spec_c7_no_change_lines rpc7 "T7" "B1" "TR" ["MA"] summary7 rfl rfl⟩

/-- C8 counterexample: on a ledger where the input references output index 5
of a source transaction with a single output, resolution ends in the
`index out of bounds` panic, not in a propagated error result (`err`, the
model of a returned `NotFoundError`): the claimed failure mode is false of
the code. -/
theorem spec_c8_counterexample :
    resolve rpc8 "T8" "B1" "TR" = .panic "index out of bounds" ∧
    resolve rpc8 "T8" "B1" "TR" ≠ (Outcome.err : Outcome Summary) := by
  exact ⟨rfl, by decide⟩

/-- C8 (amended): if an input's referenced output index is missing from the
fetched prior transaction's output list, the input loop halts with an
index-out-of-bounds panic — fatal, no retry — and a panicking resolution
never produces a report; the failure is a panic, not a propagated error
result. -/
theorem spec_c8_index_oob_panics :
    (∀ (rpc : Rpc) (vin : Vin) (rest : List Vin) (acc : InputAccum)
        (pt : String) (pi : Nat) (prev : TxInfo),
      vin.txid = some pt → vin.vout = some pi →
      rpc.getRawTransactionInfo pt none = some prev →
      prev.vout.length ≤ pi →
      processVins rpc (vin :: rest) acc = .panic "index out of bounds") ∧
    (∀ (rpc : Rpc) (txid block_hash trader_address : String)
        (o : List String) (m : String),
      resolve rpc txid block_hash trader_address = .panic m →
      runMain rpc txid block_hash trader_address o = .panic m ∧
      ∀ text, runMain rpc txid block_hash trader_address o ≠ .ok text) := by
  constructor
  · intro rpc vin rest acc pt pi prev htx hvo hfetch hlen
    rw [processVins]
    have hidx : prev.vout[pi]? = none := by
      rw [List.getElem?_eq_none_iff]
      exact hlen
    simp only [htx, hvo, hfetch, hidx]
  · intro rpc txid block_hash trader_address o m h
    refine ⟨runMain_of_resolve_panic h, fun text => ?_⟩
    rw [runMain_of_resolve_panic h]
    intro hcon
    exact Outcome.noConfusion hcon

/-- Witness for the amended C8: the input referencing output index 5 of a
one-output source transaction makes the loop panic, and the run never
yields a report. -/
theorem spec_c8_index_oob_panics_witness :
    processVins rpc8 [⟨some "P8", some 5⟩] ⟨0, []⟩
      = .panic "index out of bounds" ∧
    runMain rpc8 "T8" "B1" "TR" [] ≠ .ok "" :=
  ⟨spec_c8_index_oob_panics.1 rpc8 ⟨some "P8", some 5⟩ [] ⟨0, []⟩ "P8" 5
      prevTx8 rfl rfl rfl (by decide),
   (spec_c8_index_oob_panics.2 rpc8 "T8" "B1" "TR" [] "index out of bounds"
      rfl).2 ""⟩

/-- C9: resolution is all-or-nothing: a failed target-transaction fetch or a
failed block-header fetch aborts the run with a propagated error and no
report text, and any run that does produce a report had a successful target
fetch and a successful prior-transaction fetch for every non-coinbase
input. -/
theorem spec_c9_all_or_nothing :
    (∀ (rpc : Rpc) (txid block_hash trader_address : String) (o : List String),
      rpc.getRawTransactionInfo txid (some block_hash) = none →
      runMain rpc txid block_hash trader_address o = .err) ∧
    (∀ (rpc : Rpc) (txid block_hash trader_address : String) (o : List String)
        (tx_info : TxInfo) (bh : String),
      rpc.getRawTransactionInfo txid (some block_hash) = some tx_info →
      tx_info.blockhash = some bh →
      rpc.getBlockHeaderInfo bh = none →
      runMain rpc txid block_hash trader_address o = .err) ∧
    (∀ (rpc : Rpc) (txid block_hash trader_address : String) (o : List String)
        (text : String),
      runMain rpc txid block_hash trader_address o = .ok text →
      ∃ tx_info,
        rpc.getRawTransactionInfo txid (some block_hash) = some tx_info ∧
        allPrevFetchesOk rpc tx_info.vin = true) := by
  refine ⟨?_, ?_, ?_⟩
  · intro rpc txid block_hash trader_address o h
    simp only [runMain, resolve, h]
  · intro rpc txid block_hash trader_address o tx_info bh h1 h2 h3
    simp only [runMain, resolve, h1, h2, h3]
  · intro rpc txid block_hash trader_address o text h
    obtain ⟨s, bh, hres, hbh, htext⟩ := runMain_ok_inv h
    obtain ⟨tx_info, bh2, hdr, inAcc, hfetch, hbh2, hhdr, hvins, hle, hs⟩ :=
      resolve_ok_inv hres
    exact ⟨tx_info, hfetch, processVins_ok_fetches hvins⟩

/-- Witness for C9: on the all-failing ledger the run aborts with a
propagated error and produces no report. -/
theorem spec_c9_all_or_nothing_witness :
    runMain failRpc "T1" "B1" "TR" [] = .err :=
  spec_c9_all_or_nothing.1 failRpc "T1" "B1" "TR" [] rfl

/-- C10: the fetched transaction's optional blockhash field is unwrapped;
if the block-scoped fetch returns it absent the run panics instead of
returning an error, and any run that completes with a report had the field
populated. -/
theorem spec_c10_blockhash_unwrap :
    (∀ (rpc : Rpc) (txid block_hash trader_address : String)
        (o : List String) (tx_info : TxInfo),
      rpc.getRawTransactionInfo txid (some block_hash) = some tx_info →
      tx_info.blockhash = none →
      runMain rpc txid block_hash trader_address o
        = .panic "called Option::unwrap on a None value") ∧
    (∀ (rpc : Rpc) (txid block_hash trader_address : String)
        (o : List String) (text : String),
      runMain rpc txid block_hash trader_address o = .ok text →
      ∃ tx_info bh,
        rpc.getRawTransactionInfo txid (some block_hash) = some tx_info ∧
        tx_info.blockhash = some bh) := by
  constructor
  · intro rpc txid block_hash trader_address o tx_info h1 h2
    simp only [runMain, resolve, h1, h2]
  · intro rpc txid block_hash trader_address o text h
    obtain ⟨s, bh, hres, hbh, htext⟩ := runMain_ok_inv h
    obtain ⟨tx_info, bh2, hdr, inAcc, hfetch, hbh2, hhdr, hvins, hle, hs⟩ :=
      resolve_ok_inv hres
    exact ⟨tx_info, bh2, hfetch, hbh2⟩

/-- Witness for C10: a fetched transaction whose blockhash field is absent
makes the run panic at the unwrap. -/
theorem spec_c10_blockhash_unwrap_witness :
    runMain rpc10 "T10" "B1" "TR" []
      = .panic "called Option::unwrap on a None value" :=
  spec_c10_blockhash_unwrap.1 rpc10 "T10" "B1" "TR" [] tx10 rfl rfl
